import Mathlib

/-
Verification of the stablecoin portfolio aggregation logic of the
CrpBase/stablecoins repository.

The repository contains two variants of the same feature:
  - script.js : function getStablePercent, classification predicate
    isStableToken, per-chain sequential requests over the CHAINS list,
    with per-chain failures silently skipped;
  - the second script (unnamed) : function getPortfolioBreakdown,
    classification predicate isStable, one cross-chain request, with
    request failures thrown to the caller.

The embedding below mirrors the JavaScript source.  Numeric quote values
are modelled as exact rationals (the source uses IEEE doubles only for
sums and one division; no claim below depends on rounding).  A quote field
is modelled post-parse: the field holds some q exactly when
Number.isFinite(parseFloat(raw quote)) is true in the source, and none
when the raw quote is absent, non-numeric (for example the string N/A) or
parses to NaN or an infinity.  Network interaction is modelled by a
per-network outcome value supplied as an argument, and the requests the
code issues are recorded as an event trace.
-/

namespace Stablecoins

/-- Characters removed by the JavaScript trim method (ASCII whitespace;
the inputs of interest here are ASCII). -/
def jsTrim (s : String) : String :=
  String.mk (((s.data.dropWhile Char.isWhitespace).reverse.dropWhile Char.isWhitespace).reverse)

/-- ASCII uppercase of one character, as the JavaScript toUpperCase method
acts on the ASCII inputs of interest. -/
def jsUpperChar (c : Char) : Char :=
  if c.isLower then Char.ofNat (c.toNat - 32) else c

/-- ASCII uppercase of a string, modelling the toUpperCase method. -/
def jsToUpperCase (s : String) : String :=
  String.mk (s.data.map jsUpperChar)

/-- Word character class of JavaScript regular expressions. -/
def isWordChar (c : Char) : Bool :=
  c.isAlphanum || c = '_'

/-- There is a word boundary between the previous character (none at the
start of the string) and a first word character. -/
def boundaryBefore : Option Char → Bool
  | none => true
  | some c => !isWordChar c

/-- The word w (all of whose characters are word characters) occurs at the
head of the remaining input, followed by a word boundary. -/
def wordAtHead : List Char → List Char → Bool
  | [], [] => true
  | [], c :: _ => !isWordChar c
  | _ :: _, [] => false
  | w :: ws, c :: cs => w == c && wordAtHead ws cs

/-- Scanning helper: prev is the character preceding the remaining input. -/
def containsWordAux (w : List Char) : Option Char → List Char → Bool
  | prev, [] => boundaryBefore prev && wordAtHead w []
  | prev, c :: cs =>
    (boundaryBefore prev && wordAtHead w (c :: cs)) || containsWordAux w (some c) cs

/-- Models the JavaScript regular expression test for a word made of word
characters surrounded by word boundaries, such as the source patterns
matching USD and STABLE as whole words. -/
def testWordBoundary (w s : String) : Bool :=
  containsWordAux w.data none s.data

/-- A token balance item as consumed by both scripts.  The symbol and name
are absent-or-string; the quote field is the parsed finite value when the
source side Number.isFinite(parseFloat(it.quote)) gate passes, none
otherwise. -/
structure Item where
  contract_ticker_symbol : Option String := none
  contract_name : Option String := none
  quote : Option Rat := none
deriving DecidableEq

/-- Uppercased ticker symbol of an item, with absent treated as the empty
string, exactly as both source predicates compute it. -/
def itemSymbolU (it : Item) : String :=
  jsToUpperCase (it.contract_ticker_symbol.getD "")

/-- Uppercased contract name of an item, with absent treated as the empty
string, exactly as both source predicates compute it. -/
def itemNameU (it : Item) : String :=
  jsToUpperCase (it.contract_name.getD "")

/-- The STABLE_TICKERS set of script.js, as a list with membership by
string equality (the source uses a JavaScript Set). -/
def STABLE_TICKERS : List String :=
  ["USDC", "USDT", "DAI", "FRAX", "TUSD", "BUSD", "USDP", "USDD", "GUSD",
   "LUSD", "RSV", "MIM", "USDN", "FEI", "CUSD", "SUSD", "XSGD", "EURS",
   "HUSD", "USDK", "USDS", "USDE", "USDL", "PAI", "YUSD"]

/-- The CHAINS list of script.js. -/
def CHAINS : List String :=
  ["eth-mainnet", "arbitrum-mainnet", "base-mainnet", "bsc-mainnet",
   "optimism-mainnet", "polygon-mainnet", "linea-mainnet"]

/-- The STABLECOIN_TICKERS array of the unnamed script, kept verbatim,
including the SAI entry and the repeated BUSD entry. -/
def STABLECOIN_TICKERS : List String :=
  ["USDC", "USDT", "DAI", "FRAX", "TUSD", "BUSD", "USDP", "USDD", "GUSD",
   "LUSD", "RSV", "SAI", "MIM", "USDN", "FEI", "CUSD", "SUSD", "BUSD",
   "XSGD", "EURS", "HUSD", "USDK", "USDS", "USDE", "USDL", "PAI", "YUSD"]

/-- Classification predicate of script.js. -/
def isStableToken (item : Item) : Bool :=
  if STABLE_TICKERS.contains (itemSymbolU item) then true
  else
    testWordBoundary "USD" (itemSymbolU item)
      || testWordBoundary "USD" (itemNameU item)
      || testWordBoundary "STABLE" (itemNameU item)

/-- Classification predicate of the unnamed script.  Note that, unlike
script.js, the STABLE word test is also applied to the symbol. -/
def isStable (token : Item) : Bool :=
  if STABLECOIN_TICKERS.contains (itemSymbolU token) then true
  else
    (testWordBoundary "USD" (itemSymbolU token)
        || testWordBoundary "STABLE" (itemSymbolU token))
      || (testWordBoundary "USD" (itemNameU token)
        || testWordBoundary "STABLE" (itemNameU token))

/-- The data object inside a parsed response envelope; its items field may
be absent. -/
structure ApiData where
  items : Option (List Item) := none
deriving DecidableEq

/-- A parsed response body: none when the top level data variable is
falsy, some none when its data field is falsy, some (some d) otherwise. -/
abbrev ApiEnvelope := Option (Option ApiData)

/-- Items extracted from an envelope, modelling the source expression
that takes data, then its data field, then its items field, defaulting to
the empty list when any of them is missing. -/
def envItems : ApiEnvelope → List Item
  | some (some d) => d.items.getD []
  | _ => []

/-- Outcome of one per-chain request in script.js. -/
inductive NetOutcome where
  /-- The fetch call rejects (transport failure); caught by the source. -/
  | fetchFail
  /-- The response has a non-success HTTP status; the source continues. -/
  | notOk (status : Nat)
  /-- The json method rejects (malformed body); caught by the source. -/
  | jsonFail
  /-- The body parses; the envelope may still lack the items field. -/
  | ok (body : ApiEnvelope)
deriving DecidableEq

/-- The items a chain contributes under a given outcome: the extracted
items on a parsed body, nothing on any failure. -/
def netItems : NetOutcome → List Item
  | NetOutcome.ok body => envItems body
  | _ => []

/-- An outcome delivering exactly the given item list. -/
def pureNet (l : List Item) : NetOutcome :=
  NetOutcome.ok (some (some { items := some l }))

/-- One step of the inner accumulation loop of getStablePercent: a finite
quote is added to the running total and, when the item is classified
stable, to the running stable sum; a non-finite quote leaves both sums
unchanged. -/
def stablePercentStep (acc : Rat × Rat) (it : Item) : Rat × Rat :=
  match it.quote with
  | none => acc
  | some q => (acc.1 + q, if isStableToken it then acc.2 + q else acc.2)

/-- Processing of one chain by getStablePercent: any failed outcome leaves
the accumulators unchanged (the source catches or skips), a parsed body
folds its extracted items through the accumulation step. -/
def chainStep (acc : Rat × Rat) : NetOutcome → Rat × Rat
  | NetOutcome.fetchFail => acc
  | NetOutcome.notOk _ => acc
  | NetOutcome.jsonFail => acc
  | NetOutcome.ok body => (envItems body).foldl stablePercentStep acc

/-- One request to one network, recorded as an issue event followed by a
completion event (the awaited promise settling, successfully or not). -/
inductive NetEvent where
  | request (chain : String)
  | completed (chain : String)
deriving DecidableEq

/-- Errors a script invocation can surface, at the granularity the claims
need. -/
inductive JsError where
  /-- A thrown Error with the given message. -/
  | error (message : String)
  /-- A TypeError, such as calling a method on null or undefined. -/
  | typeError
  /-- A SyntaxError from parsing a malformed body. -/
  | syntaxError
  /-- The rejection of the fetch call itself. -/
  | networkError
deriving DecidableEq

/-- A JavaScript argument value: the address parameter may be a string or
a nullish value (absent arguments are undefined). -/
inductive JsArg where
  | null
  | undefined
  | str (s : String)
deriving DecidableEq

/-- Models the source expression that coalesces the address with the empty
string: nullish values and the empty string give the empty string. -/
def jsStringOrEmpty : JsArg → String
  | JsArg.null => ""
  | JsArg.undefined => ""
  | JsArg.str s => s

/-- The sequential for-of loop of getStablePercent over the chain list:
each chain is requested, awaited to completion, and processed before the
next chain is requested.  Returns the final accumulators and the event
trace. -/
def runChains (net : String → NetOutcome) : List String → Rat × Rat → (Rat × Rat) × List NetEvent
  | [], acc => (acc, [])
  | c :: rest, acc =>
    let acc2 := chainStep acc (net c)
    let tail := runChains net rest acc2
    (tail.1, NetEvent.request c :: NetEvent.completed c :: tail.2)

/-- getStablePercent of script.js: coalesce and trim the address, reject
an empty result, otherwise walk the chain list sequentially accumulating
total and stable sums, and return the percentage. -/
def getStablePercent (address : JsArg) (net : String → NetOutcome) :
    Except JsError Rat × List NetEvent :=
  let a := jsTrim (jsStringOrEmpty address)
  if a = "" then (Except.error (JsError.error "Введи адресу гаманця"), [])
  else
    let run := runChains net CHAINS (0, 0)
    let total := run.1.1
    let stable := run.1.2
    (Except.ok (if total > 0 then stable / total * 100 else 0), run.2)

/-- The accumulators produced by a getStablePercent run, for stating
properties of the aggregation. -/
def aggChains (net : String → NetOutcome) : Rat × Rat :=
  CHAINS.foldl (fun acc c => chainStep acc (net c)) (0, 0)

/-- All items contributed across the chain list under a given outcome
assignment, in processing order. -/
def allItems (net : String → NetOutcome) : List Item :=
  (CHAINS.map (fun c => netItems (net c))).flatten

/-- One step of the accumulation loop of getPortfolioBreakdown, which is
the same computation with the isStable predicate of that script. -/
def breakdownStep (acc : Rat × Rat) (item : Item) : Rat × Rat :=
  match item.quote with
  | none => acc
  | some value => (acc.1 + value, if isStable item then acc.2 + value else acc.2)

/-- The aggregation of getPortfolioBreakdown over its item list. -/
def breakdownAgg (items : List Item) : Rat × Rat :=
  items.foldl breakdownStep (0, 0)

/-- The result record of getPortfolioBreakdown. -/
structure Breakdown where
  total : Rat
  stable : Rat
  percentage : Rat
deriving DecidableEq

/-- Body of the single cross-chain response of the unnamed script. -/
inductive CrossBody where
  /-- The json method rejects; the rejection propagates to the caller. -/
  | jsonFail
  /-- The body parses to an envelope. -/
  | json (envelope : ApiEnvelope)
deriving DecidableEq

/-- Outcome of the single cross-chain request of the unnamed script. -/
inductive CrossOutcome where
  /-- The fetch call rejects; the rejection propagates to the caller. -/
  | fetchFail
  /-- A settled response with its ok flag, status, and body. -/
  | resp (ok : Bool) (status : Nat) (body : CrossBody)
deriving DecidableEq

/-- getPortfolioBreakdown of the unnamed script: trim the address (a
method call that raises a TypeError on a nullish argument), reject an
empty result, issue the single cross-chain request, throw on a rejected
fetch, a non-success status or a missing envelope, and otherwise fold the
items into total, stable and percentage. -/
def getPortfolioBreakdown (address : JsArg) (outcome : CrossOutcome) :
    Except JsError Breakdown × List NetEvent :=
  match address with
  | JsArg.null => (Except.error JsError.typeError, [])
  | JsArg.undefined => (Except.error JsError.typeError, [])
  | JsArg.str s =>
    let trimmed := jsTrim s
    if trimmed = "" then (Except.error (JsError.error "Адреса не може бути порожньою"), [])
    else
      let evs := [NetEvent.request "allchains", NetEvent.completed "allchains"]
      match outcome with
      | CrossOutcome.fetchFail => (Except.error JsError.networkError, evs)
      | CrossOutcome.resp ok status body =>
        if ok = false then
          (Except.error (JsError.error ("Помилка запиту: " ++ toString status)), evs)
        else
          match body with
          | CrossBody.jsonFail => (Except.error JsError.syntaxError, evs)
          | CrossBody.json envelope =>
            match envelope with
            | none => (Except.error (JsError.error "Неправильна відповідь сервера"), evs)
            | some none => (Except.error (JsError.error "Неправильна відповідь сервера"), evs)
            | some (some d) =>
              let items := d.items.getD []
              let agg := breakdownAgg items
              let total := agg.1
              let stable := agg.2
              let percentage := if total > 0 then stable / total * 100 else 0
              (Except.ok { total := total, stable := stable, percentage := percentage }, evs)

/-- Modelled from the spec, for comparison in the classification claim:
the heuristic as the claim words it, a whole word USD or STABLE in the
uppercased symbol or the uppercased name. -/
def specHeuristicStable (it : Item) : Bool :=
  testWordBoundary "USD" (itemSymbolU it)
    || testWordBoundary "STABLE" (itemSymbolU it)
    || testWordBoundary "USD" (itemNameU it)
    || testWordBoundary "STABLE" (itemNameU it)

/-- An item carrying only the name CUSTODY, the word boundary example of
the spec. -/
def custodyItem : Item := { contract_name := some "CUSTODY" }

/-- An item carrying only the name USD Coin, the word boundary example of
the spec. -/
def usdCoinItem : Item := { contract_name := some "USD Coin" }

/-- An item whose ticker symbol is the single word STABLE and whose name
is absent; the two scripts classify it differently. -/
def stableSymbolItem : Item := { contract_ticker_symbol := some "STABLE" }

/-- An item with the ticker SAI, which is in the ticker list of the
unnamed script but not in the ticker set of script.js. -/
def saiItem : Item := { contract_ticker_symbol := some "SAI", quote := some 1 }

/-- A USDC item with a positive quote. -/
def usdcItem : Item :=
  { contract_ticker_symbol := some "USDC", contract_name := some "USD Coin", quote := some 100 }

/-- An item whose quote did not parse to a finite number. -/
def nonFiniteItem : Item :=
  { contract_ticker_symbol := some "ETH", contract_name := some "Ether", quote := none }

/-- An outcome assignment on which every chain returns one non-stable
item with a negative quote. -/
def negQuoteNet : String → NetOutcome := fun _ =>
  pureNet [{ contract_ticker_symbol := some "ETH", contract_name := some "Ether",
             quote := some (-1) }]

/-- An outcome assignment on which every chain returns one USDC item. -/
def usdcNet : String → NetOutcome := fun _ => pureNet [usdcItem]

/-- An outcome assignment on which every request fails at the transport
level. -/
def failNet : String → NetOutcome := fun _ => NetOutcome.fetchFail

/-- An outcome assignment on which every chain returns an empty item
list. -/
def emptyNet : String → NetOutcome := fun _ => pureNet []

/-! Helper lemmas shared by the claim theorems. -/

theorem if_then_true (c d : Bool) : (if c = true then true else d) = (c || d) := by
  cases c <;> simp

/-- The script.js predicate as a flat boolean disjunction. -/
theorem isStableToken_eq (it : Item) :
    isStableToken it
      = (STABLE_TICKERS.contains (itemSymbolU it)
          || testWordBoundary "USD" (itemSymbolU it)
          || testWordBoundary "USD" (itemNameU it)
          || testWordBoundary "STABLE" (itemNameU it)) := by
  unfold isStableToken
  rw [if_then_true]
  simp [Bool.or_assoc]

/-- The unnamed script predicate as a flat boolean disjunction. -/
theorem isStable_eq (it : Item) :
    isStable it
      = (STABLECOIN_TICKERS.contains (itemSymbolU it)
          || testWordBoundary "USD" (itemSymbolU it)
          || testWordBoundary "STABLE" (itemSymbolU it)
          || testWordBoundary "USD" (itemNameU it)
          || testWordBoundary "STABLE" (itemNameU it)) := by
  unfold isStable
  rw [if_then_true]
  simp [Bool.or_assoc]

set_option maxHeartbeats 1000000 in
/-- The ticker list of the unnamed script is the ticker set of script.js
with the single extra entry SAI (the repeated BUSD entry adds nothing). -/
theorem contains_SAI (s : String) :
    STABLECOIN_TICKERS.contains s = (STABLE_TICKERS.contains s || s == "SAI") := by
  simp only [STABLECOIN_TICKERS, STABLE_TICKERS, List.contains_cons, List.contains_nil]
  rw [Bool.eq_iff_iff]
  simp only [Bool.or_eq_true, beq_iff_eq]
  tauto

/-- Exact relation between the two classification predicates. -/
theorem isStable_of_isStableToken (it : Item) :
    isStable it
      = (isStableToken it || (itemSymbolU it == "SAI")
          || testWordBoundary "STABLE" (itemSymbolU it)) := by
  rw [isStable_eq, isStableToken_eq, contains_SAI]
  simp [Bool.or_assoc, Bool.or_comm, Bool.or_left_comm]

theorem runChains_fst (net : String → NetOutcome) (l : List String) (acc : Rat × Rat) :
    (runChains net l acc).1 = l.foldl (fun a c => chainStep a (net c)) acc := by
  induction l generalizing acc with
  | nil => rfl
  | cons c cs ih => simp [runChains, ih, List.foldl_cons]

theorem runChains_snd (net : String → NetOutcome) (l : List String) (acc : Rat × Rat) :
    (runChains net l acc).2
      = (l.map (fun c => [NetEvent.request c, NetEvent.completed c])).flatten := by
  induction l generalizing acc with
  | nil => rfl
  | cons c cs ih => simp [runChains, ih]

theorem chainStep_eq_fold (acc : Rat × Rat) (o : NetOutcome) :
    chainStep acc o = (netItems o).foldl stablePercentStep acc := by
  cases o <;> rfl

theorem netItems_pureNet (l : List Item) : netItems (pureNet l) = l := rfl

theorem foldl_chains_flatten (net : String → NetOutcome) (l : List String) (acc : Rat × Rat) :
    l.foldl (fun a c => chainStep a (net c)) acc
      = ((l.map (fun c => netItems (net c))).flatten).foldl stablePercentStep acc := by
  induction l generalizing acc with
  | nil => rfl
  | cons c cs ih =>
    simp only [List.foldl_cons, List.map_cons, List.flatten_cons, List.foldl_append]
    rw [chainStep_eq_fold, ih]

/-- The per-chain aggregation is the plain fold over all contributed
items in processing order. -/
theorem aggChains_eq_fold (net : String → NetOutcome) :
    aggChains net = (allItems net).foldl stablePercentStep (0, 0) := by
  unfold aggChains allItems
  exact foldl_chains_flatten net CHAINS (0, 0)

theorem fold_agree (l : List Item) (acc : Rat × Rat)
    (h : ∀ it ∈ l, isStableToken it = isStable it) :
    l.foldl stablePercentStep acc = l.foldl breakdownStep acc := by
  induction l generalizing acc with
  | nil => rfl
  | cons it its ih =>
    have h1 : isStableToken it = isStable it := h it (List.mem_cons_self it its)
    have hstep : stablePercentStep acc it = breakdownStep acc it := by
      unfold stablePercentStep breakdownStep
      rw [h1]
    rw [List.foldl_cons, List.foldl_cons, hstep]
    exact ih _ (fun x hx => h x (List.mem_cons_of_mem it hx))

theorem stableFold_bounds (l : List Item) (acc : Rat × Rat)
    (hacc : 0 ≤ acc.1 ∧ 0 ≤ acc.2 ∧ acc.2 ≤ acc.1)
    (h : ∀ it ∈ l, 0 ≤ it.quote.getD 0) :
    0 ≤ (l.foldl stablePercentStep acc).1 ∧ 0 ≤ (l.foldl stablePercentStep acc).2 ∧
      (l.foldl stablePercentStep acc).2 ≤ (l.foldl stablePercentStep acc).1 := by
  induction l generalizing acc with
  | nil => exact hacc
  | cons it its ih =>
    rw [List.foldl_cons]
    refine ih _ ?_ (fun x hx => h x (List.mem_cons_of_mem it hx))
    obtain ⟨h1, h2, h3⟩ := hacc
    have hq := h it (List.mem_cons_self it its)
    cases hqo : it.quote with
    | none =>
      simp only [stablePercentStep, hqo]
      exact ⟨h1, h2, h3⟩
    | some q =>
      have hq0 : 0 ≤ q := by simpa [hqo] using hq
      simp only [stablePercentStep, hqo]
      refine ⟨by linarith, ?_, ?_⟩ <;> dsimp only <;> split <;> linarith

theorem breakdownFold_bounds (l : List Item) (acc : Rat × Rat)
    (hacc : 0 ≤ acc.1 ∧ 0 ≤ acc.2 ∧ acc.2 ≤ acc.1)
    (h : ∀ it ∈ l, 0 ≤ it.quote.getD 0) :
    0 ≤ (l.foldl breakdownStep acc).1 ∧ 0 ≤ (l.foldl breakdownStep acc).2 ∧
      (l.foldl breakdownStep acc).2 ≤ (l.foldl breakdownStep acc).1 := by
  induction l generalizing acc with
  | nil => exact hacc
  | cons it its ih =>
    rw [List.foldl_cons]
    refine ih _ ?_ (fun x hx => h x (List.mem_cons_of_mem it hx))
    obtain ⟨h1, h2, h3⟩ := hacc
    have hq := h it (List.mem_cons_self it its)
    cases hqo : it.quote with
    | none =>
      simp only [breakdownStep, hqo]
      exact ⟨h1, h2, h3⟩
    | some q =>
      have hq0 : 0 ≤ q := by simpa [hqo] using hq
      simp only [breakdownStep, hqo]
      refine ⟨by linarith, ?_, ?_⟩ <;> dsimp only <;> split <;> linarith

/-- A run over chains that all contribute no items leaves the
accumulators untouched. -/
theorem foldl_chains_empty (net : String → NetOutcome) (l : List String) (acc : Rat × Rat)
    (h : ∀ c ∈ l, netItems (net c) = []) :
    l.foldl (fun a c => chainStep a (net c)) acc = acc := by
  induction l generalizing acc with
  | nil => rfl
  | cons c cs ih =>
    rw [List.foldl_cons, chainStep_eq_fold, h c (List.mem_cons_self c cs)]
    exact ih _ (fun x hx => h x (List.mem_cons_of_mem c hx))

theorem runChains_congr (net net' : String → NetOutcome) (l : List String) (acc : Rat × Rat)
    (h : ∀ c ∈ l, ∀ a : Rat × Rat, chainStep a (net c) = chainStep a (net' c)) :
    runChains net l acc = runChains net' l acc := by
  induction l generalizing acc with
  | nil => rfl
  | cons c cs ih =>
    simp only [runChains]
    rw [h c (List.mem_cons_self c cs) acc,
      ih _ (fun x hx => h x (List.mem_cons_of_mem c hx))]

/-- On a non-empty trimmed address, getStablePercent returns the ratio of
the accumulated sums together with the full per-chain request trace. -/
theorem getStablePercent_ok (addr : String) (net : String → NetOutcome)
    (h : jsTrim addr ≠ "") :
    getStablePercent (JsArg.str addr) net
      = (Except.ok (if (aggChains net).1 > 0
            then (aggChains net).2 / (aggChains net).1 * 100 else 0),
         (CHAINS.map (fun c => [NetEvent.request c, NetEvent.completed c])).flatten) := by
  simp only [getStablePercent, jsStringOrEmpty]
  rw [if_neg h, runChains_fst, runChains_snd]
  rfl

/-- On a non-empty trimmed address and a successful well-formed response,
getPortfolioBreakdown returns the folded totals and percentage. -/
theorem getPortfolioBreakdown_ok (addr : String) (st : Nat) (d : ApiData)
    (h : jsTrim addr ≠ "") :
    getPortfolioBreakdown (JsArg.str addr)
        (CrossOutcome.resp true st (CrossBody.json (some (some d))))
      = (Except.ok
          { total := (breakdownAgg (d.items.getD [])).1
            stable := (breakdownAgg (d.items.getD [])).2
            percentage := if (breakdownAgg (d.items.getD [])).1 > 0
              then (breakdownAgg (d.items.getD [])).2 / (breakdownAgg (d.items.getD [])).1 * 100
              else 0 },
         [NetEvent.request "allchains", NetEvent.completed "allchains"]) := by
  simp only [getPortfolioBreakdown]
  rw [if_neg h]
  rfl

/-! Claim theorems. -/

/-- C1 (counterexample): the claim asserts that past input validation both
aggregators return a result for every combination of network outcomes, but
getPortfolioBreakdown of the unnamed script raises an error on a
non-success HTTP status (here 500) instead of contributing zero items. -/
theorem breakdown_throws_on_status_cex :
    (getPortfolioBreakdown (JsArg.str "0xabc")
        (CrossOutcome.resp false 500 (CrossBody.json none))).1.isOk = false := by
  decide

/-- C1 (amended): for every address that is non-empty after trimming,
getStablePercent of script.js returns a result for every combination of
per-network outcomes, and every failed or malformed network is equivalent
to that network returning zero items while the remaining networks are
still processed; getPortfolioBreakdown instead propagates its network
failure as an error (see the counterexample). -/
theorem getStablePercent_resilient (addr : String) (net : String → NetOutcome)
    (h : jsTrim addr ≠ "") :
    (getStablePercent (JsArg.str addr) net).1.isOk = true
    ∧ getStablePercent (JsArg.str addr) net
        = getStablePercent (JsArg.str addr) (fun c => pureNet (netItems (net c))) := by
  have hagg : aggChains (fun c => pureNet (netItems (net c))) = aggChains net := by
    unfold aggChains
    apply List.foldl_ext
    intro a c _
    rw [chainStep_eq_fold, chainStep_eq_fold, netItems_pureNet]
  constructor
  · rw [getStablePercent_ok addr net h]
    rfl
  · rw [getStablePercent_ok addr net h, getStablePercent_ok addr _ h, hagg]

/-- C1 witness: a concrete resilient run in which every chain fails. -/
theorem getStablePercent_resilient_witness :
    jsTrim "0xabc" ≠ ""
    ∧ (getStablePercent (JsArg.str "0xabc") failNet).1.isOk = true :=
  ⟨by decide, (getStablePercent_resilient "0xabc" failNet (by decide)).1⟩

/-- C2 (counterexample): an item whose ticker symbol is the whole word
STABLE satisfies the claimed heuristic (whole word USD or STABLE in the
uppercased symbol or name) and is outside the ticker set, yet
isStableToken of script.js classifies it not stable, because script.js
never applies the STABLE word test to the symbol. -/
theorem classification_heuristic_cex :
    STABLE_TICKERS.contains (itemSymbolU stableSymbolItem) = false
    ∧ specHeuristicStable stableSymbolItem = true
    ∧ isStableToken stableSymbolItem = false := by
  decide

/-- C2 (amended): for items outside the respective ticker sets, isStable
of the unnamed script matches the claimed heuristic exactly, while
isStableToken of script.js applies the USD word test to symbol and name
but the STABLE word test to the name only; the CUSTODY and USD Coin
examples behave as the claim states under both predicates. -/
theorem classification_heuristic (it : Item)
    (h1 : STABLE_TICKERS.contains (itemSymbolU it) = false)
    (h2 : STABLECOIN_TICKERS.contains (itemSymbolU it) = false) :
    (isStableToken it
      = (testWordBoundary "USD" (itemSymbolU it)
          || testWordBoundary "USD" (itemNameU it)
          || testWordBoundary "STABLE" (itemNameU it)))
    ∧ isStable it = specHeuristicStable it
    ∧ isStableToken custodyItem = false ∧ isStable custodyItem = false
    ∧ isStableToken usdCoinItem = true ∧ isStable usdCoinItem = true := by
  refine ⟨?_, ?_, by decide, by decide, by decide, by decide⟩
  · rw [isStableToken_eq, h1]
    simp
  · rw [isStable_eq, h2]
    unfold specHeuristicStable
    simp [Bool.or_assoc]

/-- C2 witness: the classification of the USD Coin item. -/
theorem classification_heuristic_witness :
    STABLE_TICKERS.contains (itemSymbolU usdCoinItem) = false
    ∧ isStableToken usdCoinItem
      = (testWordBoundary "USD" (itemSymbolU usdCoinItem)
          || testWordBoundary "USD" (itemNameU usdCoinItem)
          || testWordBoundary "STABLE" (itemNameU usdCoinItem)) :=
  ⟨by decide, (classification_heuristic usdCoinItem (by decide) (by decide)).1⟩

/-- C3 (counterexample): the item with ticker SAI is classified stable by
isStable of the unnamed script and not stable by isStableToken of
script.js, so the two variants do not implement the same classification. -/
theorem variants_equivalence_cex :
    isStableToken saiItem = false ∧ isStable saiItem = true := by
  decide

/-- C3 (amended): the two predicates differ exactly on the extra SAI
ticker and on the STABLE word test applied to the symbol; on any fixed
outcome assignment whose items all classify identically, the per-chain
aggregation of script.js and the single fold of the unnamed script over
the same items produce the same total and stable sums, and hence the same
percentage. -/
theorem variants_equivalence (net : String → NetOutcome)
    (h : ∀ it ∈ allItems net, isStableToken it = isStable it) :
    (∀ it : Item, isStable it
        = (isStableToken it || (itemSymbolU it == "SAI")
            || testWordBoundary "STABLE" (itemSymbolU it)))
    ∧ aggChains net = breakdownAgg (allItems net)
    ∧ (if (aggChains net).1 > 0
        then (aggChains net).2 / (aggChains net).1 * 100 else 0)
      = (if (breakdownAgg (allItems net)).1 > 0
          then (breakdownAgg (allItems net)).2 / (breakdownAgg (allItems net)).1 * 100
          else 0) := by
  have hagg : aggChains net = breakdownAgg (allItems net) := by
    rw [aggChains_eq_fold]
    unfold breakdownAgg
    exact fold_agree _ _ h
  exact ⟨isStable_of_isStableToken, hagg, by rw [hagg]⟩

/-- C3 witness: the aggregations agree on a run in which every chain
returns one USDC item. -/
theorem variants_equivalence_witness :
    (∀ it ∈ allItems usdcNet, isStableToken it = isStable it)
    ∧ aggChains usdcNet = breakdownAgg (allItems usdcNet) :=
  ⟨by decide, (variants_equivalence usdcNet (by decide)).2.1⟩

/-- C4 (counterexample): with a negative parsed quote the accumulated
total of the per-chain aggregation is negative, so the claimed invariant
does not hold of every sequence of balance items. -/
theorem aggregation_invariants_cex :
    ¬ (0 ≤ (aggChains negQuoteNet).1 ∧ 0 ≤ (aggChains negQuoteNet).2
        ∧ (aggChains negQuoteNet).2 ≤ (aggChains negQuoteNet).1) := by
  have h : ¬ (0 ≤ (aggChains negQuoteNet).1) := by
    simp [negQuoteNet, aggChains, CHAINS, chainStep, stablePercentStep, pureNet,
      netItems, envItems]
    norm_num
  exact fun hc => h hc.1

/-- C4 (amended): whenever every contributed item has a non-negative
parsed quote, both aggregations satisfy the claimed invariants: the total
is non-negative and the stable sum lies between zero and the total. -/
theorem aggregation_invariants (net : String → NetOutcome) (items : List Item)
    (h1 : ∀ c ∈ CHAINS, ∀ it ∈ netItems (net c), 0 ≤ it.quote.getD 0)
    (h2 : ∀ it ∈ items, 0 ≤ it.quote.getD 0) :
    (0 ≤ (aggChains net).1 ∧ 0 ≤ (aggChains net).2
        ∧ (aggChains net).2 ≤ (aggChains net).1)
    ∧ (0 ≤ (breakdownAgg items).1 ∧ 0 ≤ (breakdownAgg items).2
        ∧ (breakdownAgg items).2 ≤ (breakdownAgg items).1) := by
  constructor
  · rw [aggChains_eq_fold]
    apply stableFold_bounds _ _ ⟨le_refl 0, le_refl 0, le_refl 0⟩
    intro it hit
    unfold allItems at hit
    simp only [List.mem_flatten, List.mem_map] at hit
    obtain ⟨l, ⟨c, hc, rfl⟩, hitl⟩ := hit
    exact h1 c hc it hitl
  · exact breakdownFold_bounds items (0, 0) ⟨le_refl 0, le_refl 0, le_refl 0⟩ h2

/-- C4 witness: the invariants on a run in which every chain returns one
USDC item with quote 100. -/
theorem aggregation_invariants_witness :
    (∀ c ∈ CHAINS, ∀ it ∈ netItems (usdcNet c), 0 ≤ it.quote.getD 0)
    ∧ 0 ≤ (aggChains usdcNet).1 :=
  ⟨by decide, ((aggregation_invariants usdcNet [] (by decide) (by decide)).1).1⟩

/-- C5: on every aggregation run past validation, the percentage returned
is the stable sum divided by the total times 100 when the total is
positive and exactly 0 when the total is not positive, and a run in which
every network returns an empty item list returns exactly 0, with no
division fault. -/
theorem percentage_formula (addr : String) (net : String → NetOutcome)
    (st : Nat) (d : ApiData) (h : jsTrim addr ≠ "") :
    ((aggChains net).1 > 0 →
      (getStablePercent (JsArg.str addr) net).1
        = Except.ok ((aggChains net).2 / (aggChains net).1 * 100))
    ∧ ((aggChains net).1 ≤ 0 →
      (getStablePercent (JsArg.str addr) net).1 = Except.ok 0)
    ∧ ((∀ c ∈ CHAINS, netItems (net c) = []) →
      (getStablePercent (JsArg.str addr) net).1 = Except.ok 0)
    ∧ ((breakdownAgg (d.items.getD [])).1 > 0 →
      ((getPortfolioBreakdown (JsArg.str addr)
          (CrossOutcome.resp true st (CrossBody.json (some (some d))))).1.map
            Breakdown.percentage)
        = Except.ok ((breakdownAgg (d.items.getD [])).2 / (breakdownAgg (d.items.getD [])).1 * 100))
    ∧ ((breakdownAgg (d.items.getD [])).1 ≤ 0 →
      ((getPortfolioBreakdown (JsArg.str addr)
          (CrossOutcome.resp true st (CrossBody.json (some (some d))))).1.map
            Breakdown.percentage)
        = Except.ok 0) := by
  refine ⟨?_, ?_, ?_, ?_, ?_⟩
  · intro hpos
    rw [getStablePercent_ok addr net h]
    simp [if_pos hpos]
  · intro hle
    rw [getStablePercent_ok addr net h]
    simp [if_neg (not_lt.mpr hle)]
  · intro hempty
    have hz : aggChains net = (0, 0) := by
      unfold aggChains
      exact foldl_chains_empty net CHAINS (0, 0) hempty
    rw [getStablePercent_ok addr net h, hz]
    norm_num
  · intro hpos
    rw [getPortfolioBreakdown_ok addr st d h]
    simp [if_pos hpos, Except.map]
  · intro hle
    rw [getPortfolioBreakdown_ok addr st d h]
    simp [if_neg (not_lt.mpr hle), Except.map]

/-- C5 witness: the zero-total run in which every chain returns an empty
item list. -/
theorem percentage_formula_witness :
    jsTrim "0xabc" ≠ ""
    ∧ (∀ c ∈ CHAINS, netItems (emptyNet c) = [])
    ∧ (getStablePercent (JsArg.str "0xabc") emptyNet).1 = Except.ok 0 :=
  ⟨by decide, by decide,
    (percentage_formula "0xabc" emptyNet 200 { items := some [] } (by decide)).2.2.1 (by decide)⟩

/-- C6: an address that is empty after trimming makes both variants fail
with their input validation error, with no network request issued (the
event trace is empty). -/
theorem empty_address_rejected (s : String) (net : String → NetOutcome)
    (out : CrossOutcome) (h : jsTrim s = "") :
    getStablePercent (JsArg.str s) net
        = (Except.error (JsError.error "Введи адресу гаманця"), [])
    ∧ getPortfolioBreakdown (JsArg.str s) out
        = (Except.error (JsError.error "Адреса не може бути порожньою"), []) := by
  constructor
  · simp [getStablePercent, jsStringOrEmpty, h]
  · simp [getPortfolioBreakdown, h]

/-- C6 witness: the whitespace-only address. -/
theorem empty_address_rejected_witness :
    jsTrim "   " = ""
    ∧ getStablePercent (JsArg.str "   ") failNet
        = (Except.error (JsError.error "Введи адресу гаманця"), []) :=
  ⟨by decide, (empty_address_rejected "   " failNet CrossOutcome.fetchFail (by decide)).1⟩

/-- C7: an item whose quote did not parse to a finite number leaves both
accumulators of both variants unchanged. -/
theorem nonfinite_quote_excluded (acc : Rat × Rat) (it : Item) (h : it.quote = none) :
    stablePercentStep acc it = acc ∧ breakdownStep acc it = acc := by
  constructor <;> simp [stablePercentStep, breakdownStep, h]

/-- C7 witness: the concrete non-finite item. -/
theorem nonfinite_quote_excluded_witness :
    nonFiniteItem.quote = none ∧ stablePercentStep (0, 0) nonFiniteItem = (0, 0) :=
  ⟨rfl, (nonfinite_quote_excluded (0, 0) nonFiniteItem rfl).1⟩

/-- C8: both aggregators are deterministic: two runs on the same address
and extensionally identical network responses return identical results. -/
theorem aggregation_deterministic (a1 a2 : JsArg) (net1 net2 : String → NetOutcome)
    (o1 o2 : CrossOutcome) (ha : a1 = a2) (hn : ∀ c, net1 c = net2 c) (ho : o1 = o2) :
    getStablePercent a1 net1 = getStablePercent a2 net2
    ∧ getPortfolioBreakdown a1 o1 = getPortfolioBreakdown a2 o2 := by
  have hnet : net1 = net2 := funext hn
  subst ha ho hnet
  exact ⟨rfl, rfl⟩

/-- C8 witness: two runs on the USDC responses. -/
theorem aggregation_deterministic_witness :
    getStablePercent (JsArg.str "0xabc") usdcNet = getStablePercent (JsArg.str "0xabc") usdcNet :=
  (aggregation_deterministic (JsArg.str "0xabc") (JsArg.str "0xabc") usdcNet usdcNet
    CrossOutcome.fetchFail CrossOutcome.fetchFail rfl (fun _ => rfl) rfl).1

/-- C9: past validation, the event trace of getStablePercent is exactly
one request per configured chain, in the order of the CHAINS list, each
request completed before the next request is issued. -/
theorem requests_sequential_in_order (addr : String) (net : String → NetOutcome)
    (h : jsTrim addr ≠ "") :
    (getStablePercent (JsArg.str addr) net).2
      = (CHAINS.map (fun c => [NetEvent.request c, NetEvent.completed c])).flatten := by
  rw [getStablePercent_ok addr net h]

/-- C9 witness: the trace of a concrete run. -/
theorem requests_sequential_in_order_witness :
    jsTrim "0xabc" ≠ ""
    ∧ (getStablePercent (JsArg.str "0xabc") failNet).2
      = (CHAINS.map (fun c => [NetEvent.request c, NetEvent.completed c])).flatten :=
  ⟨by decide, requests_sequential_in_order "0xabc" failNet (by decide)⟩

/-- C10: a nullish address (null or undefined, in particular an absent
argument) makes getStablePercent fail with the same input validation
error as an empty string, with no network call and no type error, while
getPortfolioBreakdown calls the trim method on the nullish argument and
fails with a TypeError, so the two variants fail with different errors. -/
theorem nullish_address_divergence (a : JsArg) (net : String → NetOutcome)
    (out : CrossOutcome) (h : a = JsArg.null ∨ a = JsArg.undefined) :
    getStablePercent a net = (Except.error (JsError.error "Введи адресу гаманця"), [])
    ∧ getPortfolioBreakdown a out = (Except.error JsError.typeError, [])
    ∧ JsError.error "Введи адресу гаманця" ≠ JsError.typeError := by
  rcases h with h | h <;> subst h <;> exact ⟨rfl, rfl, by decide⟩

/-- C10 witness: the null address. -/
theorem nullish_address_divergence_witness :
    getStablePercent JsArg.null failNet
      = (Except.error (JsError.error "Введи адресу гаманця"), []) :=
  (nullish_address_divergence JsArg.null failNet CrossOutcome.fetchFail (Or.inl rfl)).1

end Stablecoins
